import Mathlib

/-!
Verification of the message-transformation core of HumbleForwarder
(`humble_forwarder.py`), a single-file SES email forwarder.

The Python source is shallowly embedded below.  Messages are modelled as an
ordered list of header (name, value) pairs plus an opaque body (a list of
lines/parts that the program never inspects).  Header-name comparisons in the
Python `email` library lowercase the names; header names are ASCII, so ASCII
lowercasing is used.  A Python header lookup `message[name]` yields the first
matching header, or `None` when absent, modelled as `Option String`.
-/

namespace HumbleForwarder

/-- ASCII lowercasing of one character, as `str.lower` acts on header names. -/
def lowerChar (c : Char) : Char :=
  if 'A' ≤ c ∧ c ≤ 'Z' then Char.ofNat (c.toNat + 32) else c

/-- The key under which Python's `email` library compares header names:
the name lowercased (header names are ASCII). -/
def lowerName (s : String) : List Char :=
  s.data.map lowerChar

/-- Python `str()` applied to a header value that may be `None`:
an address-header assignment of `None` stores the string `"None"`. -/
def pyStr : Option String → String
  | some s => s
  | none => "None"

/-- Python truthiness of `message[name]`: `None` (absent header) and the
empty string are falsy, every other string is truthy. -/
def truthy : Option String → Bool
  | none => false
  | some s => s != ""

/-- A parsed email message: an ordered header list (duplicates possible)
and an opaque body that the forwarder never inspects or mutates. -/
structure EmailMessage where
  headers : List (String × String)
  body : List String
deriving DecidableEq

/-- The routing configuration `dict(sender=SENDER, recipient=RECIPIENT)`
built in `forward_mail` from the environment. -/
structure Config where
  sender : String
  recipient : String
deriving DecidableEq

/-- Python `name in message`: case-insensitive membership among header names. -/
def msgContains (m : EmailMessage) (name : String) : Bool :=
  m.headers.any fun p => lowerName p.1 == lowerName name

/-- Python `message[name]`: the first header whose name matches
case-insensitively, `None` (here `none`) when absent. -/
def msgGet (m : EmailMessage) (name : String) : Option String :=
  (m.headers.find? fun p => lowerName p.1 == lowerName name).map Prod.snd

/-- Python `del message[name]`: removes every occurrence of the named header
(case-insensitively); no error when absent. -/
def msgDelItem (m : EmailMessage) (name : String) : EmailMessage :=
  { m with headers := m.headers.filter fun p => !(lowerName p.1 == lowerName name) }

/-- Python `message[name] = value`: appends a header.  In this program the
value is a `dict` entry that is a string for every key except `Reply-To`,
which may be Python `None`; assigning `None` to an address header stores the
string `"None"` (observed stdlib behaviour), rendered by `pyStr`. -/
def msgSetItem (m : EmailMessage) (name : String) (value : Option String) : EmailMessage :=
  { m with headers := m.headers ++ [(name, pyStr value)] }

/-- The fixed allow-list `headers_to_keep` of `get_new_message_headers`. -/
def headers_to_keep : List String :=
  ["MIME-Version",
   "Content-Type",
   "Content-Disposition",
   "Content-Transfer-Encoding",
   "Date",
   "Subject"]

/-- `get_new_message_headers(config, ses_recipient, message)`: the new header
mapping, as an insertion-ordered association list mirroring the Python dict
(kept headers in allow-list order, then To, From, Reply-To).  Values are
`Option String` because `message["From"]` may be Python `None`. -/
def get_new_message_headers (config : Config) (ses_recipient : String)
    (message : EmailMessage) : List (String × Option String) :=
  (headers_to_keep.filterMap fun header =>
    if msgContains message header then some (header, msgGet message header) else none)
  ++ [("To", some config.recipient)]
  ++ [("From", if config.sender != "" then some config.sender else some ses_recipient)]
  ++ [("Reply-To", if truthy (msgGet message "Reply-To") then msgGet message "Reply-To"
                   else msgGet message "From")]

/-- `set_new_message_headers(message, new_headers)`: delete every existing
header (iterating the message's key list), then insert the mapping's entries
in insertion order. -/
def set_new_message_headers (message : EmailMessage)
    (new_headers : List (String × Option String)) : EmailMessage :=
  let cleared := (message.headers.map Prod.fst).foldl msgDelItem message
  new_headers.foldl (fun m p => msgSetItem m p.1 p.2) cleared

/-- The stripped body text built by `create_error_email` (an f-string over
the attempted message's Reply-To and Subject and the traceback). -/
def error_email_text (reply_to subject : Option String) (traceback_string : String) : String :=
  "There was an error forwarding an email to SES.\n\nOriginal Sender: "
    ++ pyStr reply_to
    ++ "\nOriginal Subject: " ++ pyStr subject
    ++ "\n\nTraceback:\n\n" ++ traceback_string

/-- `create_error_email(attempted_message, traceback_string)`: a fresh message
with From/To copied from the attempted message, the fixed Subject, and the
diagnostic text as body.  (The stdlib `set_content` also adds MIME plumbing
headers; they are outside every claim and not modelled.) -/
def create_error_email (attempted_message : EmailMessage)
    (traceback_string : String) : EmailMessage :=
  { headers :=
      [("From", pyStr (msgGet attempted_message "From")),
       ("To", pyStr (msgGet attempted_message "To")),
       ("Subject", "Email forwarding error")],
    body := [error_email_text (msgGet attempted_message "Reply-To")
              (msgGet attempted_message "Subject") traceback_string] }

/-- The receipt of one SES record: the verified recipient list and the verdict
mapping.  A verdict entry `(name, status)` models `receipt[name].get("status")`;
the status is `none` when the verdict object lacks a `status` key. -/
structure Receipt where
  recipients : List String
  verdicts : List (String × Option String)
deriving DecidableEq

/-- One entry of the trigger event's `Records` list. -/
structure SESRecord where
  messageId : String
  receipt : Receipt
deriving DecidableEq

/-- The trigger event: a list of SES records. -/
structure SESEvent where
  records : List SESRecord
deriving DecidableEq

/-- The five verdicts tracked by `is_ses_spam`. -/
def tracked_verdicts : List String :=
  ["spamVerdict", "virusVerdict", "spfVerdict", "dkimVerdict", "dmarcVerdict"]

/-- `is_ses_spam`: folds over the five tracked verdicts, setting the flag when
a present verdict has status exactly `"FAIL"`.  The source function receives
the whole event and projects `Records[0].ses.receipt`; that projection is
modelled in `lambda_handler`, and the verdict logic takes the receipt here. -/
def is_ses_spam (receipt : Receipt) : Bool :=
  tracked_verdicts.foldl
    (fun is_fail verdict =>
      match List.lookup verdict receipt.verdicts with
      | some status => if status = some "FAIL" then true else is_fail
      | none => is_fail)
    false

/-- `get_ses_recipients`: the verified recipients of the receipt (the source
projects `Records[0].ses.receipt`, modelled in `lambda_handler`). -/
def get_ses_recipients (receipt : Receipt) : List String :=
  receipt.recipients

/-- A Python exception raised by a collaborator call.  `clientError` is
botocore's `ClientError`, the only class caught by `forward_mail`; every
other exception is `otherError`. -/
inductive PyError where
  | clientError (detail : String)
  | otherError (detail : String)
deriving DecidableEq

/-- Model of `traceback.format_exc()` for the caught exception. -/
def traceback_of : PyError → String
  | .clientError detail => detail
  | .otherError detail => detail

/-- One header line split at its first colon into a name and a value. -/
def split_header_line (line : String) : String × String :=
  (⟨line.data.takeWhile fun c => !(c == ':')⟩,
   ⟨(line.data.dropWhile fun c => !(c == ':')).drop 1⟩)

/-- Modelled from the spec: the MIME codec's `parse` (implemented by the
Python standard library `email.parser.BytesParser`, outside this repository).
Raw bytes are a list of lines; the header section runs until the first blank
line, each header line splitting at the first colon; everything after the
blank line is the opaque body, kept unchanged. -/
def parse_message_from_bytes (raw_bytes : List String) : EmailMessage :=
  { headers := (raw_bytes.takeWhile fun l => !(l == "")).map split_header_line,
    body := (raw_bytes.dropWhile fun l => !(l == "")).drop 1 }

/-- Modelled from the spec: the MIME codec's `serialize`
(`message.as_string()`, Python standard library): rendered header lines,
a blank separator line, then the opaque body unchanged. -/
def message_as_string (message : EmailMessage) : List String :=
  (message.headers.map fun p => p.1 ++ ":" ++ p.2) ++ [""] ++ message.body

/-- The body section of raw message bytes: everything after the first blank
line. -/
def raw_body (raw_bytes : List String) : List String :=
  (raw_bytes.dropWhile fun l => !(l == "")).drop 1

/-- The external collaborators and configuration of one invocation:
the S3 fetch (raw bytes of a message id, or a raised error) and the SES
`send_raw_email` submission outcome (`none` means sent, `some e` means the
call raised `e`). -/
structure Env where
  config : Config
  s3 : String → Except PyError (List String)
  ses : EmailMessage → Option PyError

/-- `get_message_from_s3(message_id)`: fetch the raw bytes from the store and
parse them; a fetch error propagates. -/
def get_message_from_s3 (env : Env) (message_id : String) :
    Except PyError EmailMessage :=
  match env.s3 message_id with
  | .error e => .error e
  | .ok raw_bytes => .ok (parse_message_from_bytes raw_bytes)

/-- The observable outcome of one `forward_mail` call: the messages submitted
to `send_raw_email` in order, and whether the call returned or raised. -/
inductive ForwardOutcome where
  | delivered (submissions : List EmailMessage)
  | raised (submissions : List EmailMessage) (e : PyError)
deriving DecidableEq

/-- Whether a `forward_mail` outcome raised an uncaught exception. -/
def ForwardOutcome.raises : ForwardOutcome → Bool
  | .delivered _ => false
  | .raised _ _ => true

/-- `forward_mail(ses_recipient, message_id)`: fetch and parse, rewrite the
headers, submit; a `ClientError` from the submission is caught and an error
email is built and submitted instead, any other exception (and any exception
from the error-email submission) propagates. -/
def forward_mail (env : Env) (ses_recipient : String) (message_id : String) :
    ForwardOutcome :=
  match get_message_from_s3 env message_id with
  | .error e => .raised [] e
  | .ok message =>
    let new_headers := get_new_message_headers env.config ses_recipient message
    let message2 := set_new_message_headers message new_headers
    match env.ses message2 with
    | none => .delivered [message2]
    | some e =>
      match e with
      | .clientError detail =>
        let error_message := create_error_email message2 (traceback_of (.clientError detail))
        match env.ses error_message with
        | none => .delivered [message2, error_message]
        | some e2 => .raised [message2, error_message] e2
      | .otherError detail => .raised [message2] (.otherError detail)

/-- The observable outcome of one `lambda_handler` invocation: for each
recipient actually reached, that recipient's `forward_mail` outcome, plus the
exception propagated to the Lambda platform, if any. -/
structure HandlerResult where
  attempts : List (String × ForwardOutcome)
  error : Option PyError
deriving DecidableEq

/-- The `for ses_recipient in ses_recipients` loop of `lambda_handler`:
each recipient is forwarded in turn; an uncaught exception aborts the loop,
so the remaining recipients are never attempted. -/
def run_recipients (env : Env) (message_id : String) : List String → HandlerResult
  | [] => { attempts := [], error := none }
  | r :: rest =>
    match forward_mail env r message_id with
    | .delivered subs =>
      let result := run_recipients env message_id rest
      { attempts := (r, .delivered subs) :: result.attempts, error := result.error }
    | .raised subs e =>
      { attempts := [(r, .raised subs e)], error := some e }

/-- `lambda_handler(event, context)`: read the message id, receipt and
verdicts from `Records[0]`, return early on spam, else loop over the verified
recipients.  An event with no records raises (`IndexError`). -/
def lambda_handler (env : Env) (event : SESEvent) : HandlerResult :=
  match event.records with
  | [] => { attempts := [], error := some (.otherError "IndexError") }
  | record :: _ =>
    let message_id := record.messageId
    if is_ses_spam record.receipt then { attempts := [], error := none }
    else run_recipients env message_id (get_ses_recipients record.receipt)

/-! ## General lemmas about the header operations -/

theorem lookup_append {β : Type} (a : String) (l₁ l₂ : List (String × β)) :
    List.lookup a (l₁ ++ l₂) = (List.lookup a l₁).or (List.lookup a l₂) := by
  induction l₁ with
  | nil => simp [List.lookup]
  | cons p t ih =>
    rcases p with ⟨k, v⟩
    rw [List.cons_append, List.lookup_cons, List.lookup_cons]
    cases h : a == k with
    | true => simp
    | false => simpa using ih

theorem lookup_filterMap_if_not_mem {β : Type} (names : List String)
    (c : String → Bool) (f : String → β) (a : String) (ha : a ∉ names) :
    List.lookup a (names.filterMap fun n => if c n then some (n, f n) else none)
      = none := by
  induction names with
  | nil => rfl
  | cons n t ih =>
    have han : (a == n) = false := by
      simp only [beq_eq_false_iff_ne, ne_eq]
      exact fun h => ha (h ▸ List.mem_cons_self n t)
    have hat : a ∉ t := fun h => ha (List.mem_cons_of_mem n h)
    rw [List.filterMap_cons]
    split
    · exact ih hat
    · rename_i b hb
      split at hb
      · cases hb
        rw [List.lookup_cons, han]
        exact ih hat
      · cases hb

theorem lookup_filterMap_if_mem {β : Type} (names : List String)
    (c : String → Bool) (f : String → β) (a : String)
    (hnd : names.Nodup) (ha : a ∈ names) :
    List.lookup a (names.filterMap fun n => if c n then some (n, f n) else none)
      = if c a then some (f a) else none := by
  induction names with
  | nil => cases ha
  | cons n t ih =>
    have hnt : n ∉ t := (List.nodup_cons.mp hnd).1
    have hnd' : t.Nodup := (List.nodup_cons.mp hnd).2
    rcases List.mem_cons.mp ha with rfl | hat
    · rw [List.filterMap_cons]
      split
      · rename_i hb
        rw [if_neg (by simpa using hb)]
        exact lookup_filterMap_if_not_mem t c f a hnt
      · rename_i b hb
        split at hb
        · rename_i hc
          cases hb
          rw [List.lookup_cons, beq_self_eq_true, if_pos hc]
        · cases hb
    · have han : (a == n) = false := by
        simp only [beq_eq_false_iff_ne, ne_eq]
        exact fun h => hnt (h ▸ hat)
      rw [List.filterMap_cons]
      split
      · exact ih hnd' hat
      · rename_i b hb
        split at hb
        · cases hb
          rw [List.lookup_cons, han]
          exact ih hnd' hat
        · cases hb

theorem mem_filterMap_if_fst {β : Type} {names : List String}
    {c : String → Bool} {f : String → β} {p : String × β}
    (hp : p ∈ names.filterMap fun n => if c n then some (n, f n) else none) :
    p.1 ∈ names := by
  rcases List.mem_filterMap.mp hp with ⟨a, ha, hfa⟩
  split at hfa
  · cases hfa; exact ha
  · cases hfa

theorem foldl_msgDelItem_body (ks : List String) (m : EmailMessage) :
    (ks.foldl msgDelItem m).body = m.body := by
  induction ks generalizing m with
  | nil => rfl
  | cons k t ih => rw [List.foldl_cons, ih]; rfl

theorem foldl_msgDelItem_headers (ks : List String) (m : EmailMessage) :
    (ks.foldl msgDelItem m).headers
      = m.headers.filter fun p => ks.all fun k => !(lowerName p.1 == lowerName k) := by
  induction ks generalizing m with
  | nil => simp
  | cons k t ih =>
    rw [List.foldl_cons, ih]
    show (m.headers.filter _).filter _ = _
    rw [List.filter_filter]
    congr 1
    funext p
    simp [List.all_cons, Bool.and_comm]

theorem clear_all_headers (m : EmailMessage) :
    ((m.headers.map Prod.fst).foldl msgDelItem m).headers = [] := by
  rw [foldl_msgDelItem_headers]
  apply List.filter_eq_nil_iff.mpr
  intro p hp
  have h1 : p.1 ∈ m.headers.map Prod.fst := List.mem_map_of_mem Prod.fst hp
  simp only [Bool.not_eq_true, List.all_eq_false]
  exact ⟨p.1, h1, by simp⟩

theorem foldl_msgSetItem (nh : List (String × Option String)) (m : EmailMessage) :
    nh.foldl (fun m p => msgSetItem m p.1 p.2) m
      = { headers := m.headers ++ nh.map fun p => (p.1, pyStr p.2),
          body := m.body } := by
  induction nh generalizing m with
  | nil => simp
  | cons p t ih =>
    rw [List.foldl_cons, ih]
    simp [msgSetItem]

theorem set_new_message_headers_spec (m : EmailMessage)
    (nh : List (String × Option String)) :
    set_new_message_headers m nh
      = { headers := nh.map fun p => (p.1, pyStr p.2), body := m.body } := by
  unfold set_new_message_headers
  rw [foldl_msgSetItem]
  rw [clear_all_headers, foldl_msgDelItem_body]
  simp

theorem headers_to_keep_nodup : headers_to_keep.Nodup := by decide

theorem lookup_new_headers_custom (config : Config) (ses_recipient : String)
    (message : EmailMessage) (a : String) (ha : a ∉ headers_to_keep) :
    List.lookup a (get_new_message_headers config ses_recipient message)
      = List.lookup a
          [("To", some config.recipient),
           ("From", if config.sender != "" then some config.sender else some ses_recipient),
           ("Reply-To", if truthy (msgGet message "Reply-To") then msgGet message "Reply-To"
                        else msgGet message "From")] := by
  unfold get_new_message_headers
  rw [List.append_assoc, List.append_assoc, lookup_append,
      lookup_filterMap_if_not_mem _ _ _ _ ha]
  rfl

theorem lookup_new_headers_kept (config : Config) (ses_recipient : String)
    (message : EmailMessage) (a : String) (ha : a ∈ headers_to_keep) :
    List.lookup a (get_new_message_headers config ses_recipient message)
      = if msgContains message a then some (msgGet message a) else none := by
  have hbeq : ((a == "To") = false ∧ (a == "From") = false)
      ∧ (a == "Reply-To") = false := by
    have hm : a ∈ headers_to_keep := ha
    simp only [headers_to_keep, List.mem_cons, List.not_mem_nil, or_false] at hm
    rcases hm with rfl | rfl | rfl | rfl | rfl | rfl <;>
      exact ⟨⟨by decide, by decide⟩, by decide⟩
  unfold get_new_message_headers
  rw [List.append_assoc, List.append_assoc, lookup_append,
      lookup_filterMap_if_mem _ _ _ _ headers_to_keep_nodup ha]
  have htail : List.lookup a
      ([("To", some config.recipient)] ++
        ([("From", if config.sender != "" then some config.sender else some ses_recipient)] ++
          [("Reply-To", if truthy (msgGet message "Reply-To") then msgGet message "Reply-To"
                        else msgGet message "From")])) = none := by
    simp only [List.singleton_append, List.lookup_cons, hbeq.1.1, hbeq.1.2, hbeq.2]
    rfl
  rw [htail]
  split <;> rfl

theorem applied_message_eq (config : Config) (ses_recipient : String)
    (message : EmailMessage) :
    set_new_message_headers message (get_new_message_headers config ses_recipient message)
      = { headers :=
            ((headers_to_keep.filterMap fun h =>
                if msgContains message h then some (h, msgGet message h) else none).map
              fun p => (p.1, pyStr p.2))
            ++ [("To", config.recipient),
                ("From", if config.sender != "" then config.sender else ses_recipient),
                ("Reply-To", pyStr (if truthy (msgGet message "Reply-To")
                  then msgGet message "Reply-To" else msgGet message "From"))],
          body := message.body } := by
  rw [set_new_message_headers_spec]
  unfold get_new_message_headers
  simp only [List.map_append, List.map_cons, List.map_nil, List.append_assoc, apply_ite pyStr]
  rfl

theorem keep_not_from_to :
    ∀ n ∈ headers_to_keep,
      ((lowerName n == lowerName "From") = false ∧ (lowerName n == lowerName "To") = false) := by
  decide

theorem msgGet_append_skip (l₁ l₂ : List (String × String)) (bd : List String)
    (a : String) (h₁ : ∀ p ∈ l₁, (lowerName p.1 == lowerName a) = false) :
    msgGet { headers := l₁ ++ l₂, body := bd } a
      = msgGet { headers := l₂, body := bd } a := by
  unfold msgGet
  rw [List.find?_append, List.find?_eq_none.mpr (by intro x hx; simp [h₁ x hx])]
  rfl

theorem mapped_kept_names (message : EmailMessage) (a : String)
    (hne : ∀ n ∈ headers_to_keep, (lowerName n == lowerName a) = false) :
    ∀ p ∈ ((headers_to_keep.filterMap fun h =>
          if msgContains message h then some (h, msgGet message h) else none).map
        fun p => (p.1, pyStr p.2)),
      (lowerName p.1 == lowerName a) = false := by
  intro x hx
  rcases List.mem_map.mp hx with ⟨p, hp, rfl⟩
  exact hne p.1 (mem_filterMap_if_fst hp)

theorem msgGet_applied_From (config : Config) (ses_recipient : String)
    (message : EmailMessage) :
    msgGet (set_new_message_headers message
        (get_new_message_headers config ses_recipient message)) "From"
      = some (if config.sender != "" then config.sender else ses_recipient) := by
  rw [applied_message_eq]
  rw [msgGet_append_skip _ _ _ _
    (mapped_kept_names message "From" (fun n hn => (keep_not_from_to n hn).1))]
  have h1 : (lowerName "To" == lowerName "From") = false := by decide
  have h2 : (lowerName "From" == lowerName "From") = true := by decide
  simp [msgGet, List.find?_cons, h1, h2]

theorem msgGet_applied_To (config : Config) (ses_recipient : String)
    (message : EmailMessage) :
    msgGet (set_new_message_headers message
        (get_new_message_headers config ses_recipient message)) "To"
      = some config.recipient := by
  rw [applied_message_eq]
  rw [msgGet_append_skip _ _ _ _
    (mapped_kept_names message "To" (fun n hn => (keep_not_from_to n hn).2))]
  have h1 : (lowerName "To" == lowerName "To") = true := by decide
  simp [msgGet, List.find?_cons, h1]

theorem is_ses_spam_foldl (vs : List String) (receipt : Receipt) (b : Bool) :
    vs.foldl
      (fun is_fail verdict =>
        match List.lookup verdict receipt.verdicts with
        | some status => if status = some "FAIL" then true else is_fail
        | none => is_fail)
      b
    = (b || vs.any fun v => List.lookup v receipt.verdicts == some (some "FAIL")) := by
  induction vs generalizing b with
  | nil => simp
  | cons v t ih =>
    rw [List.foldl_cons, ih, List.any_cons]
    have hstep : (match List.lookup v receipt.verdicts with
        | some status => if status = some "FAIL" then true else b
        | none => b)
        = (b || (List.lookup v receipt.verdicts == some (some "FAIL"))) := by
      cases h : List.lookup v receipt.verdicts with
      | none => simp [h]
      | some status =>
        by_cases hs : status = some "FAIL" <;> simp [h, hs]
    rw [hstep, Bool.or_assoc]

/-! ## Sample data used by witnesses -/

/-- A sample parsed message with several addresses in its To header
(mirrors `tests/multiple_recipients.txt`). -/
def sample_message : EmailMessage :=
  { headers := [("From", "Alpha Sigma <user@users.com>"),
                ("To", "one@x, two@x, three@x"),
                ("Subject", "test 3 addresses"),
                ("MIME-Version", "1.0")],
    body := ["body line"] }

/-- A sample parsed message with an explicit Reply-To header
(mirrors `tests/reply_to.txt`). -/
def sample_message_reply_to : EmailMessage :=
  { headers := [("From", "user@users.com"),
                ("Reply-To", "My Alias <alias@alias.com>"),
                ("Subject", "test reply-to")],
    body := [] }

/-- A sample routing configuration with no sender override. -/
def sample_config : Config :=
  { sender := "", recipient := "someone@secret.com" }

/-! ## Claims -/

/-- C3: the spam-gate predicate returns true iff at least one of the five
tracked verdicts is present in the receipt with status exactly "FAIL"; a
verdict key that is missing, or present with any other status, never causes
rejection. -/
theorem C3_spam_gate_iff_some_fail (receipt : Receipt) :
    is_ses_spam receipt = true
      ↔ ∃ v ∈ tracked_verdicts,
          List.lookup v receipt.verdicts = some (some "FAIL") := by
  unfold is_ses_spam
  rw [is_ses_spam_foldl]
  simp [List.any_eq_true]

/-- C8: the To entry of the computed header mapping is always exactly
`config.recipient`, for every config, effective recipient and original
message (in particular independently of the original To header). -/
theorem C8_to_is_config_recipient (config : Config) (ses_recipient : String)
    (message : EmailMessage) :
    List.lookup "To" (get_new_message_headers config ses_recipient message)
      = some (some config.recipient) := by
  rw [lookup_new_headers_custom _ _ _ _ (by decide)]
  simp [List.lookup_cons, show ("To" == "To") = true from by decide]

/-- C7: the From entry of the computed header mapping equals
`config.sender` when that override is non-empty and the effective (verified)
recipient otherwise; and it is independent of the original message, so it is
never derived from the original From header. -/
theorem C7_from_override_or_recipient (config : Config) (ses_recipient : String)
    (message : EmailMessage) :
    (config.sender ≠ "" →
      List.lookup "From" (get_new_message_headers config ses_recipient message)
        = some (some config.sender))
    ∧ (config.sender = "" →
      List.lookup "From" (get_new_message_headers config ses_recipient message)
        = some (some ses_recipient))
    ∧ ∀ other : EmailMessage,
        List.lookup "From" (get_new_message_headers config ses_recipient other)
          = List.lookup "From" (get_new_message_headers config ses_recipient message) := by
  have key : ∀ msg : EmailMessage,
      List.lookup "From" (get_new_message_headers config ses_recipient msg)
        = some (if config.sender != "" then some config.sender else some ses_recipient) := by
    intro msg
    rw [lookup_new_headers_custom _ _ _ _ (by decide)]
    simp [List.lookup_cons, show ("From" == "To") = false from by decide,
      show ("From" == "From") = true from by decide]
  refine ⟨fun h => ?_, fun h => ?_, fun other => (key other).trans (key message).symm⟩
  · rw [key]; simp [h]
  · rw [key]; simp [h]

/-- Witness for C7 at concrete inputs: with the override set the From entry
is the override; with it empty the From entry is the verified recipient. -/
theorem C7_witness :
    List.lookup "From" (get_new_message_headers
        { sender := "fixed@coder.dev", recipient := "someone@secret.com" }
        "code@coder.dev" sample_message)
      = some (some "fixed@coder.dev")
    ∧ List.lookup "From" (get_new_message_headers sample_config
        "code@coder.dev" sample_message)
      = some (some "code@coder.dev") :=
  ⟨(C7_from_override_or_recipient _ _ _).1 (by decide),
   (C7_from_override_or_recipient _ _ _).2.1 (by decide)⟩

/-- C5: the Reply-To entry of the computed header mapping is the original
Reply-To value when that header is present and non-empty, and the original
From value otherwise. -/
theorem C5_reply_to_fallback (config : Config) (ses_recipient : String)
    (message : EmailMessage) :
    (truthy (msgGet message "Reply-To") = true →
      List.lookup "Reply-To" (get_new_message_headers config ses_recipient message)
        = some (msgGet message "Reply-To"))
    ∧ (truthy (msgGet message "Reply-To") = false →
      List.lookup "Reply-To" (get_new_message_headers config ses_recipient message)
        = some (msgGet message "From")) := by
  have key : List.lookup "Reply-To" (get_new_message_headers config ses_recipient message)
      = some (if truthy (msgGet message "Reply-To") then msgGet message "Reply-To"
              else msgGet message "From") := by
    rw [lookup_new_headers_custom _ _ _ _ (by decide)]
    simp [List.lookup_cons, show ("Reply-To" == "To") = false from by decide,
      show ("Reply-To" == "From") = false from by decide,
      show ("Reply-To" == "Reply-To") = true from by decide]
  constructor <;> intro h <;> rw [key] <;> simp [h]

/-- Witness for C5 at concrete inputs: with an explicit Reply-To header that
value is kept verbatim; without one the original From value is used. -/
theorem C5_witness :
    List.lookup "Reply-To" (get_new_message_headers sample_config
        "code@coder.dev" sample_message_reply_to)
      = some (some "My Alias <alias@alias.com>")
    ∧ List.lookup "Reply-To" (get_new_message_headers sample_config
        "code@coder.dev" sample_message)
      = some (some "Alpha Sigma <user@users.com>") :=
  ⟨((C5_reply_to_fallback _ _ _).1 (by decide)).trans (by decide),
   ((C5_reply_to_fallback _ _ _).2 (by decide)).trans (by decide)⟩

/-- C6: for every name in the fixed allow-list, the computed header mapping
contains that name with the original message's value verbatim when the
original message has the header, and does not contain the name at all when
the original message lacks it. -/
theorem C6_kept_headers (config : Config) (ses_recipient : String)
    (message : EmailMessage) (h : String) (hmem : h ∈ headers_to_keep) :
    (msgContains message h = true →
      List.lookup h (get_new_message_headers config ses_recipient message)
        = some (msgGet message h))
    ∧ (msgContains message h = false →
      List.lookup h (get_new_message_headers config ses_recipient message)
        = none) := by
  have key := lookup_new_headers_kept config ses_recipient message h hmem
  constructor <;> intro hc <;> rw [key] <;> simp [hc]

/-- Witness for C6 at concrete inputs: Subject is present in the sample
message and kept verbatim; Content-Disposition is absent and omitted. -/
theorem C6_witness :
    List.lookup "Subject" (get_new_message_headers sample_config
        "code@coder.dev" sample_message)
      = some (some "test 3 addresses")
    ∧ List.lookup "Content-Disposition" (get_new_message_headers sample_config
        "code@coder.dev" sample_message)
      = none :=
  ⟨((C6_kept_headers _ _ _ "Subject" (by decide)).1 (by decide)).trans (by decide),
   (C6_kept_headers _ _ _ "Content-Disposition" (by decide)).2 (by decide)⟩

theorem filterMap_if_map_fst {β : Type} (names : List String)
    (c : String → Bool) (f : String → β) :
    ((names.filterMap fun n => if c n then some (n, f n) else none).map Prod.fst)
      = names.filter c := by
  induction names with
  | nil => rfl
  | cons n t ih =>
    rw [List.filterMap_cons, List.filter_cons]
    by_cases hc : c n
    · simp only [hc, if_true, List.map_cons, ih]
    · simp only [hc, if_false, Bool.false_eq_true, ih]

/-- C4: applying a new-header mapping removes every existing header of the
message (each occurrence of each duplicated name) and leaves exactly the
mapping's entries, in the mapping's insertion order, with the body unchanged;
and the mapping computed by `get_new_message_headers` lists its names in the
fixed order: present allow-list headers first (in allow-list order), then To,
From, Reply-To.  The names of a Python dict-derived mapping are distinct even
case-insensitively, which the hypothesis records. -/
theorem C4_replace_then_insert (message : EmailMessage)
    (new_headers : List (String × String))
    (_hnd : (new_headers.map fun p => lowerName p.1).Nodup) :
    set_new_message_headers message (new_headers.map fun p => (p.1, some p.2))
      = { headers := new_headers, body := message.body }
    ∧ ∀ (config : Config) (ses_recipient : String) (msg : EmailMessage),
        (get_new_message_headers config ses_recipient msg).map Prod.fst
          = (headers_to_keep.filter fun h => msgContains msg h)
            ++ ["To", "From", "Reply-To"] := by
  constructor
  · rw [set_new_message_headers_spec, List.map_map]
    congr 1
    have : ((fun p => (p.1, pyStr p.2)) ∘ fun p : String × String => (p.1, some p.2))
        = fun p : String × String => (p.1, p.2) := by
      funext p
      rfl
    rw [this]
    simp
  · intro config ses_recipient msg
    unfold get_new_message_headers
    rw [List.map_append, List.map_append, List.map_append, filterMap_if_map_fst]
    simp

/-- Witness for C4 at concrete inputs: applying a two-entry mapping to the
sample message (which has four headers) leaves exactly those two entries. -/
theorem C4_witness :
    set_new_message_headers sample_message
        ([("Subject", "s"), ("To", "t@x")].map fun p => (p.1, some p.2))
      = { headers := [("Subject", "s"), ("To", "t@x")], body := sample_message.body } :=
  (C4_replace_then_insert sample_message [("Subject", "s"), ("To", "t@x")] (by decide)).1

theorem dropWhile_append_of_all (p : String → Bool) (l₁ l₂ : List String)
    (h : ∀ x ∈ l₁, p x = true) :
    (l₁ ++ l₂).dropWhile p = l₂.dropWhile p := by
  induction l₁ with
  | nil => rfl
  | cons x t ih =>
    rw [List.cons_append, List.dropWhile_cons, h x (List.mem_cons_self x t), if_pos rfl]
    exact ih fun y hy => h y (List.mem_cons_of_mem x hy)

theorem rendered_line_ne_empty (s t : String) : (!(s ++ ":" ++ t == "")) = true := by
  simp only [Bool.not_eq_true', beq_eq_false_iff_ne, ne_eq]
  intro h
  have h2 := congrArg String.length h
  simp [String.length_append] at h2
  exact absurd h2.1.2 (by decide)

/-- C9: the parse/serialize round trip of the codec preserves the body
section byte-for-byte: the body of the serialized parsed message equals the
body section of the original raw bytes, and parsing itself keeps the body
section unchanged (no part modified, dropped or reordered). -/
theorem C9_roundtrip_preserves_body (raw_bytes : List String) :
    raw_body (message_as_string (parse_message_from_bytes raw_bytes))
      = raw_body raw_bytes
    ∧ (parse_message_from_bytes raw_bytes).body = raw_body raw_bytes := by
  refine ⟨?_, rfl⟩
  unfold message_as_string raw_body parse_message_from_bytes
  rw [List.append_assoc,
    dropWhile_append_of_all _ _ _ ?_]
  · rw [List.singleton_append, List.dropWhile_cons]
    simp
  · intro x hx
    rcases List.mem_map.mp hx with ⟨p, hp, rfl⟩
    exact rendered_line_ne_empty p.1 p.2

/-- C10: `lambda_handler` consults only the first record of the event: the
whole observable outcome for an event whose record list starts with `record`
equals the outcome for the event containing `record` alone, so any further
records are ignored and produce no forwarding attempts. -/
theorem C10_only_first_record (env : Env) (event : SESEvent)
    (record : SESRecord) (rest : List SESRecord)
    (h : event.records = record :: rest) :
    lambda_handler env event = lambda_handler env { records := [record] } := by
  unfold lambda_handler
  rw [h]

/-- The fetch→rewrite→apply composition of `forward_mail` on a successfully
fetched raw message: the message as it stands at the submission step. -/
def rewritten_message (config : Config) (ses_recipient : String)
    (raw_bytes : List String) : EmailMessage :=
  set_new_message_headers (parse_message_from_bytes raw_bytes)
    (get_new_message_headers config ses_recipient (parse_message_from_bytes raw_bytes))

theorem msgGet_error_email (am : EmailMessage) (tb : String) :
    msgGet (create_error_email am tb) "From" = some (pyStr (msgGet am "From"))
    ∧ msgGet (create_error_email am tb) "To" = some (pyStr (msgGet am "To"))
    ∧ msgGet (create_error_email am tb) "Subject" = some "Email forwarding error" := by
  refine ⟨?_, ?_, ?_⟩ <;>
    simp [create_error_email, msgGet, List.find?_cons,
      show (lowerName "From" == lowerName "From") = true from by decide,
      show (lowerName "From" == lowerName "To") = false from by decide,
      show (lowerName "To" == lowerName "To") = true from by decide,
      show (lowerName "From" == lowerName "Subject") = false from by decide,
      show (lowerName "To" == lowerName "Subject") = false from by decide,
      show (lowerName "Subject" == lowerName "Subject") = true from by decide]

/-- Sample raw message bytes stored in the bucket. -/
def sample_raw : List String :=
  ["From: Alpha Sigma <user@users.com>",
   "To: one@x, two@x, three@x",
   "Subject: test 3 addresses",
   "",
   "body line"]

/-- An environment in which every fetch and every submission succeeds. -/
def env_all_ok : Env :=
  { config := sample_config,
    s3 := fun _ => .ok sample_raw,
    ses := fun _ => none }

/-- An environment in which the S3 fetch always raises a `ClientError`. -/
def env_fetch_fails : Env :=
  { config := sample_config,
    s3 := fun _ => .error (.clientError "NoSuchKey"),
    ses := fun _ => none }

/-- An environment in which the relay rejects the forwarded message with a
`ClientError` but accepts the error-notification email. -/
def env_send_rejects : Env :=
  { config := sample_config,
    s3 := fun _ => .ok sample_raw,
    ses := fun m =>
      if msgGet m "Subject" = some "Email forwarding error" then none
      else some (.clientError "MessageRejected") }

/-- C2: a `ClientError` raised by the relay submission is not retried;
instead an error-notification email is built — Subject exactly
"Email forwarding error", From and To equal to the computed From/To of the
attempted message — and submitted; if that submission itself raises, the
error propagates to the caller.  The `ClientError` is the only error
recovered locally: a fetch error, and any non-`ClientError` submission
error, propagate unrecovered. -/
theorem C2_submission_failure_error_email (env : Env)
    (ses_recipient message_id : String) :
    (∀ e, env.s3 message_id = .error e →
      forward_mail env ses_recipient message_id = .raised [] e)
    ∧ (∀ raw_bytes detail, env.s3 message_id = .ok raw_bytes →
        env.ses (rewritten_message env.config ses_recipient raw_bytes)
          = some (.otherError detail) →
        forward_mail env ses_recipient message_id
          = .raised [rewritten_message env.config ses_recipient raw_bytes]
              (.otherError detail))
    ∧ ∀ raw_bytes detail, env.s3 message_id = .ok raw_bytes →
        env.ses (rewritten_message env.config ses_recipient raw_bytes)
          = some (.clientError detail) →
        (msgGet (create_error_email
            (rewritten_message env.config ses_recipient raw_bytes)
            (traceback_of (.clientError detail))) "Subject"
          = some "Email forwarding error"
        ∧ msgGet (create_error_email
            (rewritten_message env.config ses_recipient raw_bytes)
            (traceback_of (.clientError detail))) "From"
          = msgGet (rewritten_message env.config ses_recipient raw_bytes) "From"
        ∧ msgGet (create_error_email
            (rewritten_message env.config ses_recipient raw_bytes)
            (traceback_of (.clientError detail))) "To"
          = msgGet (rewritten_message env.config ses_recipient raw_bytes) "To")
        ∧ (env.ses (create_error_email
            (rewritten_message env.config ses_recipient raw_bytes)
            (traceback_of (.clientError detail))) = none →
          forward_mail env ses_recipient message_id
            = .delivered
                [rewritten_message env.config ses_recipient raw_bytes,
                 create_error_email
                   (rewritten_message env.config ses_recipient raw_bytes)
                   (traceback_of (.clientError detail))])
        ∧ ∀ e2, env.ses (create_error_email
            (rewritten_message env.config ses_recipient raw_bytes)
            (traceback_of (.clientError detail))) = some e2 →
          forward_mail env ses_recipient message_id
            = .raised
                [rewritten_message env.config ses_recipient raw_bytes,
                 create_error_email
                   (rewritten_message env.config ses_recipient raw_bytes)
                   (traceback_of (.clientError detail))] e2 := by
  refine ⟨fun e he => ?_, fun raw_bytes detail hraw hses => ?_,
    fun raw_bytes detail hraw hses => ⟨⟨?_, ?_, ?_⟩, fun hok => ?_, fun e2 he2 => ?_⟩⟩
  · simp [forward_mail, get_message_from_s3, he]
  · simp only [rewritten_message] at hses
    simp [forward_mail, get_message_from_s3, hraw, hses, rewritten_message]
  · exact (msgGet_error_email _ _).2.2
  · rw [(msgGet_error_email _ _).1]
    simp only [rewritten_message, msgGet_applied_From]
    rfl
  · rw [(msgGet_error_email _ _).2.1]
    simp only [rewritten_message, msgGet_applied_To]
    rfl
  · simp only [rewritten_message] at hses hok
    simp [forward_mail, get_message_from_s3, hraw, hses, hok, rewritten_message]
  · simp only [rewritten_message] at hses he2
    simp [forward_mail, get_message_from_s3, hraw, hses, he2, rewritten_message]

/-- Witness for C2 at concrete inputs: with a relay that rejects the forward
but accepts the notification, `forward_mail` returns after submitting the
rewritten message and then the error email. -/
theorem C2_witness :
    forward_mail env_send_rejects "code@coder.dev" "msg-1"
      = .delivered
          [rewritten_message sample_config "code@coder.dev" sample_raw,
           create_error_email
             (rewritten_message sample_config "code@coder.dev" sample_raw)
             (traceback_of (.clientError "MessageRejected"))] := by
  have h := (C2_submission_failure_error_email env_send_rejects
      "code@coder.dev" "msg-1").2.2 sample_raw "MessageRejected" rfl (by decide)
  exact h.2.1 (by decide)

/-- An SES record listing two verified recipients with no verdicts
(nothing fails, so the spam gate passes). -/
def first_record : SESRecord :=
  { messageId := "msg-1",
    receipt := { recipients := ["first@coder.dev", "second@coder.dev"],
                 verdicts := [] } }

/-- A second, different SES record. -/
def extra_record : SESRecord :=
  { messageId := "msg-2",
    receipt := { recipients := ["third@coder.dev"], verdicts := [] } }

/-- The trigger event carrying `first_record` alone. -/
def two_recipient_event : SESEvent :=
  { records := [first_record] }

/-- C1 counterexample: an event that passes the spam gate and lists two
verified recipients, in an environment where the S3 fetch raises.  The fetch
error during the first recipient's forwarding attempt aborts the loop: the
second recipient gets no forwarding attempt at all, contradicting the claim
that fetch failures do not prevent attempts for later recipients. -/
theorem C1_counterexample :
    is_ses_spam first_record.receipt = false
    ∧ get_ses_recipients first_record.receipt
        = ["first@coder.dev", "second@coder.dev"]
    ∧ (lambda_handler env_fetch_fails two_recipient_event).attempts.map Prod.fst
        = ["first@coder.dev"]
    ∧ (lambda_handler env_fetch_fails two_recipient_event).error
        = some (.clientError "NoSuchKey") :=
  ⟨by decide, by decide, by decide, by decide⟩

/-- C1 (amended): the recipient loop attempts every recipient up to and
including the first whose `forward_mail` raises an uncaught exception, and
stops there.  When no recipient's attempt raises — in particular when relay
submissions fail only with a `ClientError` that is recovered by a successful
error-notification — every recipient in the list is attempted in order.
When some recipient's attempt raises (fetch failure, parse failure,
non-`ClientError` submission failure, or notification-send failure), the
recipients after it in the list are not attempted. -/
theorem C1_loop_stops_at_first_raise (env : Env) (message_id : String) :
    (∀ recipients : List String,
      (∀ r ∈ recipients, (forward_mail env r message_id).raises = false) →
      run_recipients env message_id recipients
        = { attempts := recipients.map fun r => (r, forward_mail env r message_id),
            error := none })
    ∧ ∀ rs₁ r rs₂,
        (∀ x ∈ rs₁, (forward_mail env x message_id).raises = false) →
        (forward_mail env r message_id).raises = true →
        ((run_recipients env message_id (rs₁ ++ r :: rs₂)).attempts.map Prod.fst
            = rs₁ ++ [r]
          ∧ (run_recipients env message_id (rs₁ ++ r :: rs₂)).error ≠ none) := by
  constructor
  · intro recipients h
    induction recipients with
    | nil => rfl
    | cons x t ih =>
      have hx := h x (List.mem_cons_self x t)
      have ht := ih fun y hy => h y (List.mem_cons_of_mem x hy)
      cases hfx : forward_mail env x message_id with
      | delivered subs => simp [run_recipients, hfx, ht]
      | raised subs e => rw [hfx] at hx; cases hx
  · intro rs₁ r rs₂ h1 hr
    induction rs₁ with
    | nil =>
      cases hfr : forward_mail env r message_id with
      | delivered subs => rw [hfr] at hr; cases hr
      | raised subs e => simp [run_recipients, hfr]
    | cons x t ih =>
      have hx := h1 x (List.mem_cons_self x t)
      have ih2 := ih fun y hy => h1 y (List.mem_cons_of_mem x hy)
      cases hfx : forward_mail env x message_id with
      | delivered subs =>
        rw [List.cons_append]
        refine ⟨?_, ?_⟩
        · simp only [run_recipients, hfx, List.map_cons]
          rw [ih2.1]
          rfl
        · simp only [run_recipients, hfx]
          exact ih2.2
      | raised subs e => rw [hfx] at hx; cases hx

/-- Witness for C1 (amended) at concrete inputs: with every collaborator
succeeding both recipients are attempted; with the fetch raising, only the
first recipient is attempted and the error propagates. -/
theorem C1_witness :
    run_recipients env_all_ok "msg-1" ["first@coder.dev", "second@coder.dev"]
      = { attempts :=
            [("first@coder.dev", forward_mail env_all_ok "first@coder.dev" "msg-1"),
             ("second@coder.dev", forward_mail env_all_ok "second@coder.dev" "msg-1")],
          error := none }
    ∧ ((run_recipients env_fetch_fails "msg-1"
          ([] ++ "first@coder.dev" :: ["second@coder.dev"])).attempts.map Prod.fst
        = [] ++ ["first@coder.dev"]
      ∧ (run_recipients env_fetch_fails "msg-1"
          ([] ++ "first@coder.dev" :: ["second@coder.dev"])).error ≠ none) :=
  ⟨(C1_loop_stops_at_first_raise env_all_ok "msg-1").1 _ (by decide),
   (C1_loop_stops_at_first_raise env_fetch_fails "msg-1").2 [] _ _
     (by simp) (by decide)⟩

/-- Witness for C10 at concrete inputs: appending a second record with a
different message id and recipient list leaves the handler outcome
unchanged. -/
theorem C10_witness :
    lambda_handler env_all_ok { records := [first_record, extra_record] }
      = lambda_handler env_all_ok { records := [first_record] } :=
  C10_only_first_record env_all_ok _ first_record [extra_record] rfl

end HumbleForwarder
